import Mathlib

/-!
Verification of the order-assistant core (customer resolution, order
mutation, tool-calling orchestration) against its natural-language
specification.  The Python source (`view.py`) is shallowly embedded:
Python dicts keyed by strings become association lists, the remote
key-value store becomes an explicit `DB` record threaded through every
operation, Python exceptions become `Except String` results (writes
performed before a raise persist, so stateful operations return the
post-state alongside the `Except`), and `uuid4`/`utcnow` become a
deterministic id counter and a fixed clock string carried in `DB`.
-/

set_option autoImplicit false

deriving instance DecidableEq for Except

namespace DemoCT

universe u

/-! ### Association lists: the embedding of RTDB nodes and Python dicts

`aget` is point lookup (first entry with the key), `aset` is
set-or-replace (Python `d[k] = v` / RTDB `child(k).set(v)`), `apop`
is `d.pop(k, None)` / outright deletion. -/

def aget {α : Type u} : List (String × α) → String → Option α
  | [], _ => none
  | (k, v) :: rest, s => if k = s then some v else aget rest s

def aset {α : Type u} : List (String × α) → String → α → List (String × α)
  | [], k, v => [(k, v)]
  | (k', v') :: rest, k, v =>
      if k' = k then (k, v) :: rest else (k', v') :: aset rest k v

def apop {α : Type u} : List (String × α) → String → List (String × α)
  | [], _ => []
  | (k', v') :: rest, k =>
      if k' = k then apop rest k else (k', v') :: apop rest k

/-! ### Order line items and the item-map delta of `tool_modify_order` -/

/-- A line item `{"sku": ..., "quantity": ...}` as carried in tool
arguments and in the persisted `items` list of an order. -/
structure Item where
  sku : String
  quantity : Int
deriving DecidableEq

/-- The working dictionary `current_items : {sku: qty}` built inside
`tool_modify_order`. -/
abbrev ItemMap := List (String × Int)

/-- `{i["sku"]: int(i["quantity"]) for i in (order.get("items") or [])}`. -/
def itemsToMap (items : List Item) : ItemMap :=
  items.foldl (fun d it => aset d it.sku it.quantity) []

/-- `[{"sku": s, "quantity": q} for s, q in current_items.items()]`. -/
def mapToItems (d : ItemMap) : List Item :=
  d.map (fun p => { sku := p.1, quantity := p.2 })

/-- The add loop of `tool_modify_order`:
`current_items[sku] = current_items.get(sku, 0) + qty`. -/
def applyAdds (d : ItemMap) (adds : List Item) : ItemMap :=
  adds.foldl (fun d it => aset d it.sku ((aget d it.sku).getD 0 + it.quantity)) d

/-- The removal loop of `tool_modify_order`: `current_items.pop(sku, None)`. -/
def applyRemoves (d : ItemMap) (removes : List String) : ItemMap :=
  removes.foldl (fun d sku => apop d sku) d

/-- The update loop of `tool_modify_order`: quantity ≤ 0 pops the SKU,
otherwise the quantity is overwritten. -/
def applyUpdates (d : ItemMap) (upds : List Item) : ItemMap :=
  upds.foldl (fun d u => if u.quantity ≤ 0 then apop d u.sku else aset d u.sku u.quantity) d

/-- The full delta of `tool_modify_order` in the source's fixed order:
adds, then removals, then quantity updates. -/
def applyDelta (d : ItemMap) (adds : List Item) (removes : List String)
    (upds : List Item) : ItemMap :=
  applyUpdates (applyRemoves (applyAdds d adds) removes) upds

/-- Lookup of a SKU in a delta list (`add_items` / `update_quantities`),
viewing the list as a map. -/
def lookupQty : List Item → String → Option Int
  | [], _ => none
  | it :: rest, s => if it.sku = s then some it.quantity else lookupQty rest s

/-- The delta lists are maps: no SKU occurs twice. -/
def keysNodup (l : List Item) : Prop := (l.map Item.sku).Nodup

instance (l : List Item) : Decidable (keysNodup l) := by
  unfold keysNodup; infer_instance

/-- All values of an item map are positive. -/
def valsPos (d : ItemMap) : Prop := ∀ p ∈ d, (0 : Int) < p.2

/-! ### Python string normalization

`.strip()` and `.lower()` as structurally recursive functions (the
ASCII behaviour, which is what the normalization relies on). -/

/-- The whitespace characters `.strip()` removes. -/
def pyWhitespace (c : Char) : Bool :=
  c = ' ' || c = '\t' || c = '\n' || c = '\r' || c = '\x0b' || c = '\x0c'

/-- Python `s.strip()`: drop leading and trailing whitespace. -/
def pyStrip (s : String) : String :=
  String.mk (((s.data.dropWhile pyWhitespace).reverse.dropWhile pyWhitespace).reverse)

/-- Lowercase one character (ASCII). -/
def pyLowerChar (c : Char) : Char :=
  if c.isUpper then Char.ofNat (c.toNat + 32) else c

/-- Python `s.lower()`. -/
def pyLower (s : String) : String := String.mk (s.data.map pyLowerChar)

/-- `(x or "").strip()` for an optional field. -/
def normStr (s : Option String) : String := pyStrip (s.getD "")

/-- `(x or "").strip().lower()`: the email normalization. -/
def normEmail (s : Option String) : String := pyLower (pyStrip (s.getD ""))

/-! ### Data model and store

A customer record as persisted under `customers/<id>`; this core always
stores all four fields (missing inputs become the empty string), so the
record type is total. -/

structure Customer where
  id : String
  name : String
  email : String
  address : String
deriving DecidableEq

/-- An order record as persisted under `orders/<id>`.  Records created
by this core always carry all six fields. -/
structure OrderRec where
  id : String
  customer_id : String
  status : String
  items : List Item
  shipping_address : String
  created_at : String
deriving DecidableEq

/-- The remote store plus the environmental inputs the code draws on:
`nextId` stands for the `uuid4` supply (each generated id consumes one)
and `now` for `datetime.utcnow().isoformat()`. -/
structure DB where
  customers : List (String × Customer)
  orders : List (String × OrderRec)
  nextId : Nat
  now : String
deriving DecidableEq

/-- The next identifier `str(uuid.uuid4())` would return. -/
def genId (db : DB) : String := "uuid-" ++ toString db.nextId

/-- `get_customer_by_id`: point read; the `id` field is overwritten with
the lookup key before returning (`data["id"] = customer_id`). -/
def get_customer_by_id (customer_id : String) (db : DB) : Option Customer :=
  (aget db.customers customer_id).map (fun c => { c with id := customer_id })

/-- Scan of the customers collection: the first entry whose record
satisfies the predicate, returned with its `id` field set to its key
(`cust["id"] = cid`). -/
def findFirst? (l : List (String × Customer)) (p : Customer → Bool) : Option Customer :=
  match l with
  | [] => none
  | (k, c) :: rest => if p c then some { c with id := k } else findFirst? rest p

/-- `find_customer_by_email`: normalizes its argument
(`(email or "").strip().lower()`), returns `None` when empty, otherwise
the first customer whose stored email normalizes to the same string.
The indexed fast path of the source is behaviourally the fallback scan
embedded here (both return a first exact match on the normalized email),
so only the scan is modelled. -/
def find_customer_by_email (email : String) (db : DB) : Option Customer :=
  let norm_email := pyLower (pyStrip email)
  if norm_email = "" then none
  else findFirst? db.customers (fun c => pyLower (pyStrip c.email) == norm_email)

/-- `find_customer_by_name_address`: first customer matching both fields
exactly. -/
def find_customer_by_name_address (name address : String) (db : DB) : Option Customer :=
  findFirst? db.customers (fun c => c.name == name && c.address == address)

/-- `find_or_create_customer`: normalize, look up by email, fall back to
name+address, create when at least a name or an email is present,
otherwise raise.  The creation branch performs the single store write
(`customers_ref().child(cid).set(cust_obj)`); the generated uuid is
`genId db`. -/
def find_or_create_customer (name email address : Option String) (db : DB) :
    Except String Customer × DB :=
  let norm_name := normStr name
  let norm_email := normEmail email
  let norm_address := normStr address
  let cust : Option Customer :=
    if norm_email ≠ "" then find_customer_by_email norm_email db else none
  let cust : Option Customer :=
    if cust.isNone ∧ norm_name ≠ "" ∧ norm_address ≠ "" then
      find_customer_by_name_address norm_name norm_address db
    else cust
  if cust.isNone ∧ (norm_name ≠ "" ∨ norm_email ≠ "") then
    let cid := genId db
    let cust_obj : Customer :=
      { id := cid, name := norm_name, email := norm_email, address := norm_address }
    (.ok cust_obj,
     { db with customers := aset db.customers cid cust_obj, nextId := db.nextId + 1 })
  else
    match cust with
    | some c => (.ok c, db)
    | none => (.error "Cannot resolve customer. Provide at least name or email.", db)

/-- Modelled from the spec (section 4.1, and the wording of the
resolution claim): the priority-ordered resolution contract — email
lookup when the normalized email is non-empty, then exact name+address
lookup when both are non-empty, then creation of exactly one new
customer with a fresh id and the normalized fields when at least a name
or an email is present, else a resolution error.  Written to be compared
with `find_or_create_customer`. -/
def resolveCustomerSpec (name email address : Option String) (db : DB) :
    Except String Customer × DB :=
  let ne := normEmail email
  let nn := normStr name
  let na := normStr address
  match (if ne = "" then none else find_customer_by_email ne db) with
  | some c => (.ok c, db)
  | none =>
      match (if nn = "" ∨ na = "" then none else find_customer_by_name_address nn na db) with
      | some c => (.ok c, db)
      | none =>
          if nn = "" ∧ ne = "" then
            (.error "Cannot resolve customer. Provide at least name or email.", db)
          else
            let freshId := genId db
            let created : Customer := { id := freshId, name := nn, email := ne, address := na }
            (.ok created,
             { db with customers := aset db.customers freshId created,
                       nextId := db.nextId + 1 })

/-- `update_customer_address`: 404 when the id is absent, otherwise the
stored record's `address` field is replaced and the updated record
returned with its id. -/
def update_customer_address (customer_id new_address : String) (db : DB) :
    Except String Customer × DB :=
  match aget db.customers customer_id with
  | none => (.error "Customer not found", db)
  | some c =>
      let c' := { c with address := new_address }
      (.ok { c' with id := customer_id },
       { db with customers := aset db.customers customer_id c' })

/-- `create_order`: rejects an empty item list before any store access;
a missing shipping address defaults to the customer's stored address
(empty when the customer is unknown); assigns a fresh id, status
`PLACED` and the creation timestamp, and writes the full document. -/
def create_order (customer_id : String) (items : List Item)
    (shipping_address : Option String) (db : DB) : Except String OrderRec × DB :=
  if items.isEmpty then (.error "Items cannot be empty.", db)
  else
    let ship : String :=
      match shipping_address with
      | none => ((get_customer_by_id customer_id db).map Customer.address).getD ""
      | some s => s
    let order_id := genId db
    let order_doc : OrderRec :=
      { id := order_id, customer_id := customer_id, status := "PLACED",
        items := items, shipping_address := ship, created_at := db.now }
    (.ok order_doc,
     { db with orders := aset db.orders order_id order_doc, nextId := db.nextId + 1 })

/-- `get_order`: point read, raising `"Order not found"` when absent. -/
def get_order (order_id : String) (db : DB) : Except String OrderRec :=
  match aget db.orders order_id with
  | none => .error "Order not found"
  | some o => .ok o

/-- The RTDB `update` call of `save_order`: merge the four written
fields into the stored record, leaving `id` and `created_at` as stored.
When the key is absent RTDB creates a node holding only the written
fields; the unwritten fields then read back as empty. -/
def omerge (l : List (String × OrderRec)) (oid : String) (o : OrderRec) :
    List (String × OrderRec) :=
  match l with
  | [] => [(oid, { id := "", customer_id := o.customer_id, status := o.status,
                   items := o.items, shipping_address := o.shipping_address,
                   created_at := "" })]
  | (k, r) :: rest =>
      if k = oid then
        (k, { r with customer_id := o.customer_id, status := o.status,
                     items := o.items, shipping_address := o.shipping_address }) :: rest
      else (k, r) :: omerge rest oid o

/-- `save_order`: merge-write `customer_id`, `status`, `items` and
`shipping_address` at `order["id"]`, then read the record back. -/
def save_order (o : OrderRec) (db : DB) : Except String OrderRec × DB :=
  let orders' := omerge db.orders o.id o
  let db' := { db with orders := orders' }
  match aget orders' o.id with
  | none => (.error "Order not found", db')
  | some saved => (.ok saved, db')

/-! ### Tool implementations

Tools run against the store and either return a success dict
(`{"ok": True, ...}`) or raise; the raise is modelled as `.error` and is
converted to a failed result at the orchestrator boundary.  Writes done
before a raise persist, so the post-state accompanies the `Except`. -/

/-- The `order` payload of a successful order tool result
(`tool_modify_order` omits `created_at`). -/
structure OrderOut where
  id : String
  status : String
  items : List Item
  shipping_address : String
  customer_id : String
  created_at : Option String := none
deriving DecidableEq

/-- A ToolResult dict: success flag plus either an error description or
an entity payload. -/
structure ToolResult where
  ok : Bool
  error : Option String := none
  customer : Option Customer := none
  order : Option OrderOut := none
deriving DecidableEq

/-- The nested `customer` object of `place_order` arguments. -/
structure CustomerInput where
  id : Option String := none
  name : Option String := none
  email : Option String := none
  address : Option String := none
deriving DecidableEq

/-- A decoded tool-argument dict; every field the five tools read.
Absent keys are `none`. -/
structure ToolArgs where
  name : Option String := none
  email : Option String := none
  address : Option String := none
  customer : Option CustomerInput := none
  items : Option (List Item) := none
  shipping_address : Option String := none
  order_id : Option String := none
  add_items : Option (List Item) := none
  remove_items : Option (List String) := none
  update_quantities : Option (List Item) := none
  new_shipping_address : Option String := none
  customer_id : Option String := none
  new_address : Option String := none
deriving DecidableEq

/-- The order view returned by `tool_place_order` and
`tool_get_order_status` (includes `created_at`). -/
def orderViewFull (o : OrderRec) : OrderOut :=
  { id := o.id, status := o.status, items := o.items,
    shipping_address := o.shipping_address, customer_id := o.customer_id,
    created_at := some o.created_at }

/-- The order view returned by `tool_modify_order` (no `created_at`). -/
def orderViewNoTs (o : OrderRec) : OrderOut :=
  { id := o.id, status := o.status, items := o.items,
    shipping_address := o.shipping_address, customer_id := o.customer_id }

/-- `tool_create_customer`. -/
def tool_create_customer (args : ToolArgs) (db : DB) : Except String ToolResult × DB :=
  match find_or_create_customer args.name args.email args.address db with
  | (.error e, db') => (.error e, db')
  | (.ok c, db') => (.ok { ok := true, customer := some c }, db')

/-- The tail of `tool_place_order` once the customer is resolved. -/
def place_order_finish (customer : Customer) (items : List Item)
    (shipping_address : Option String) (db : DB) : Except String ToolResult × DB :=
  match create_order customer.id items shipping_address db with
  | (.error e, db') => (.error e, db')
  | (.ok order, db') => (.ok { ok := true, order := some (orderViewFull order) }, db')

/-- `tool_place_order`: a non-empty `customer.id` is looked up directly
(raising when absent); otherwise the customer is resolved or created. -/
def tool_place_order (args : ToolArgs) (db : DB) : Except String ToolResult × DB :=
  let customer_input := args.customer.getD {}
  let items := args.items.getD []
  match (if (customer_input.id.getD "") = "" then none else customer_input.id) with
  | some cid =>
      match get_customer_by_id cid db with
      | none => (.error "Customer id not found.", db)
      | some customer => place_order_finish customer items args.shipping_address db
  | none =>
      match find_or_create_customer customer_input.name customer_input.email
          customer_input.address db with
      | (.error e, db') => (.error e, db')
      | (.ok customer, db') => place_order_finish customer items args.shipping_address db'

/-- `tool_modify_order`: `args["order_id"]` raises a `KeyError` when the
key is missing; otherwise load, apply the delta, optionally replace the
shipping address (only when truthy, i.e. non-empty), and save. -/
def tool_modify_order (args : ToolArgs) (db : DB) : Except String ToolResult × DB :=
  match args.order_id with
  | none => (.error "KeyError: order_id", db)
  | some order_id =>
      let add_items := args.add_items.getD []
      let remove_items := args.remove_items.getD []
      let updates := args.update_quantities.getD []
      match get_order order_id db with
      | .error e => (.error e, db)
      | .ok order =>
          let current := applyDelta (itemsToMap order.items) add_items remove_items updates
          let order := { order with items := mapToItems current }
          let order :=
            if (args.new_shipping_address.getD "") ≠ "" then
              { order with shipping_address := args.new_shipping_address.getD "" }
            else order
          match save_order order db with
          | (.error e, db') => (.error e, db')
          | (.ok saved, db') => (.ok { ok := true, order := some (orderViewNoTs saved) }, db')

/-- `tool_update_customer_address`: both arguments are required
(`args[...]` raises `KeyError` when missing). -/
def tool_update_customer_address (args : ToolArgs) (db : DB) :
    Except String ToolResult × DB :=
  match args.customer_id with
  | none => (.error "KeyError: customer_id", db)
  | some cid =>
      match args.new_address with
      | none => (.error "KeyError: new_address", db)
      | some na =>
          match update_customer_address cid na db with
          | (.error e, db') => (.error e, db')
          | (.ok c, db') => (.ok { ok := true, customer := some c }, db')

/-- `tool_get_order_status`. -/
def tool_get_order_status (args : ToolArgs) (db : DB) : Except String ToolResult × DB :=
  match args.order_id with
  | none => (.error "KeyError: order_id", db)
  | some oid =>
      match get_order oid db with
      | .error e => (.error e, db)
      | .ok o => (.ok { ok := true, order := some (orderViewFull o) }, db)

/-- The fixed tool registry `TOOL_IMPLS` as a name lookup. -/
def TOOL_IMPLS (n : String) : Option (ToolArgs → DB → Except String ToolResult × DB) :=
  if n = "create_customer" then some tool_create_customer
  else if n = "place_order" then some tool_place_order
  else if n = "modify_order" then some tool_modify_order
  else if n = "update_customer_address" then some tool_update_customer_address
  else if n = "get_order_status" then some tool_get_order_status
  else none

/-- The names in the fixed tool registry. -/
def toolNames : List String :=
  ["create_customer", "place_order", "modify_order",
   "update_customer_address", "get_order_status"]

/-- One dispatched invocation at the orchestrator's per-invocation
boundary: unknown names become a failed result, raising implementations
are caught and become a failed result. -/
def runToolCall (db : DB) (name : String) (args : ToolArgs) : ToolResult × DB :=
  match TOOL_IMPLS name with
  | none => ({ ok := false, error := some ("Unknown tool " ++ name) }, db)
  | some impl =>
      match impl args db with
      | (.ok r, db') => (r, db')
      | (.error e, db') => ({ ok := false, error := some e }, db')

/-! ### Conversation orchestration (`chat_step`) -/

/-- The argument payload of a requested tool call: opaque structured
text that either decodes to an argument dict or is malformed JSON. -/
inductive ArgPayload where
  | malformed
  | decoded (args : ToolArgs)
deriving DecidableEq

/-- A tool invocation requested by the model. -/
structure ToolCall where
  id : String
  name : String
  payload : ArgPayload
deriving DecidableEq

/-- The model's first response in a turn: free text and/or requested
tool calls. -/
structure ModelMsg where
  content : Option String := none
  toolCalls : List ToolCall := []
deriving DecidableEq

/-- Message roles of the session log. -/
inductive Role where
  | system
  | user
  | assistant
  | tool
deriving DecidableEq

/-- One entry of the session message log. -/
structure Message where
  role : Role
  content : Option String := none
  toolCalls : List ToolCall := []
  tool_call_id : Option String := none
  name : Option String := none
deriving DecidableEq

/-- The exception text of `json.loads` on undecodable input (the exact
Python message is positional; only the fact that an exception escapes
matters). -/
def jsonDecodeError : String := "Expecting value: malformed JSON in tool arguments"

/-- `json.loads(tc.function.arguments or "\x7b\x7d")`: decodes or raises. -/
def jsonLoads : ArgPayload → Except String ToolArgs
  | .malformed => .error jsonDecodeError
  | .decoded a => .ok a

/-- `json.dumps(tool_result)`, abstracted to the fields the claims can
observe (the success payload serialization is elided). -/
def jsonDumps (r : ToolResult) : String :=
  "\x7b\"ok\": " ++ (if r.ok then "true" else "false") ++
    (match r.error with
     | none => ""
     | some e => ", \"error\": \"" ++ e ++ "\"") ++ "\x7d"

/-- Session log plus store, threaded through a turn. -/
structure TurnState where
  messages : List Message
  db : DB
deriving DecidableEq

/-- Outcome of one `chat_step` turn: a reply (recording whether the
second, summary model call was issued) or an uncaught exception
aborting the turn. -/
inductive TurnResult where
  | completed (reply : String) (summaryCalled : Bool) (st : TurnState)
  | aborted (exn : String) (st : TurnState)
deriving DecidableEq

/-- `content or "(no content)"`: empty and missing content become the
placeholder. -/
def contentOrPlaceholder : Option String → String
  | none => "(no content)"
  | some s => if s = "" then "(no content)" else s

/-- The sequential tool loop of `chat_step`: decode (an undecodable
payload raises out of the loop), dispatch, append the invocation and
result entries to the log, and collect `"<name>: <error>"` for failed
results. -/
def runToolCalls : List ToolCall → TurnState → List String →
    Except (String × TurnState) (TurnState × List String)
  | [], st, errs => .ok (st, errs)
  | tc :: rest, st, errs =>
      match jsonLoads tc.payload with
      | .error e => .error (e, st)
      | .ok args =>
          let (tool_result, db') := runToolCall st.db tc.name args
          let msgs' := st.messages ++
            [{ role := .assistant, toolCalls := [tc], content := some "" },
             { role := .tool, tool_call_id := some tc.id, name := some tc.name,
               content := some (jsonDumps tool_result) }]
          let errs' :=
            if tool_result.ok then errs
            else errs ++ [tc.name ++ ": " ++ (tool_result.error.getD "Unknown error")]
          runToolCalls rest { messages := msgs', db := db' } errs'

/-- `chat_step`: append the user message, consult the model (its first
response `resp` and, when reached, the summary response
`summaryContent` are environmental inputs), execute requested tools
sequentially, and produce the turn's reply.  A turn with a failed tool
skips the summary call and replies with the joined error list behind a
fixed banner; that reply is appended as the assistant's turn-ending
log entry. -/
def chat_step (history : List Message) (userMessage : String) (resp : ModelMsg)
    (summaryContent : Option String) (db : DB) : TurnResult :=
  let messages := history ++ [{ role := .user, content := some userMessage }]
  if resp.toolCalls.isEmpty then
    .completed (contentOrPlaceholder resp.content) false
      { messages := messages ++ [{ role := .assistant, content := resp.content }], db := db }
  else
    match runToolCalls resp.toolCalls { messages := messages, db := db } [] with
    | .error (e, st) => .aborted e st
    | .ok (st, errs) =>
        if errs.isEmpty then
          .completed (contentOrPlaceholder summaryContent) true
            { messages := st.messages ++ [{ role := .assistant, content := summaryContent }],
              db := st.db }
        else
          let etext := "Error while performing the requested action: " ++
            String.intercalate " | " errs
          .completed etext false
            { messages := st.messages ++ [{ role := .assistant, content := some etext }],
              db := st.db }

/-! ### Lookup lemmas for the dictionary operations -/

theorem aget_aset {α : Type u} (l : List (String × α)) (k s : String) (v : α) :
    aget (aset l k v) s = if k = s then some v else aget l s := by
  induction l with
  | nil => simp [aset, aget]
  | cons p rest ih =>
      obtain ⟨a, b⟩ := p
      by_cases hp : a = k
      · simp only [aset, if_pos hp, aget]
        by_cases hks : k = s
        · simp [hks]
        · have hps : ¬ a = s := fun h => hks (hp.symm.trans h)
          simp [hks, hps]
      · simp only [aset, if_neg hp, aget]
        by_cases hps : a = s
        · have hks : ¬ k = s := fun h => hp (hps.trans h.symm)
          simp [hps, hks]
        · simp [hps, ih]

theorem aget_apop {α : Type u} (l : List (String × α)) (k s : String) :
    aget (apop l k) s = if k = s then none else aget l s := by
  induction l with
  | nil => simp [apop, aget]
  | cons p rest ih =>
      obtain ⟨a, b⟩ := p
      by_cases hp : a = k
      · simp only [apop, if_pos hp]
        rw [ih]
        by_cases hks : k = s
        · simp [hks]
        · have hps : ¬ a = s := fun h => hks (hp.symm.trans h)
          simp [hks, aget, hps]
      · simp only [apop, if_neg hp, aget]
        by_cases hps : a = s
        · have hks : ¬ k = s := fun h => hp (hps.trans h.symm)
          simp [hps, hks]
        · simp [hps, ih]

theorem aget_applyRemoves (d : ItemMap) (rs : List String) (s : String) :
    aget (applyRemoves d rs) s = if s ∈ rs then none else aget d s := by
  induction rs generalizing d with
  | nil => simp [applyRemoves]
  | cons r rest ih =>
      show aget (applyRemoves (apop d r) rest) s = _
      rw [ih, aget_apop]
      by_cases hsr : s ∈ rest
      · simp [hsr]
      · by_cases hrs : r = s
        · simp [hrs, List.mem_cons]
        · have hsr' : ¬ s = r := fun h => hrs h.symm
          have : ¬ s ∈ r :: rest := by
            simp [List.mem_cons, hsr, hsr']
          simp [hsr, hrs, this]

theorem aget_applyAdds_of_not_mem (d : ItemMap) (adds : List Item) (s : String)
    (h : ∀ it ∈ adds, it.sku ≠ s) :
    aget (applyAdds d adds) s = aget d s := by
  induction adds generalizing d with
  | nil => simp [applyAdds]
  | cons a rest ih =>
      show aget (applyAdds (aset d a.sku _) rest) s = _
      rw [ih _ (fun it hit => h it (List.mem_cons_of_mem _ hit)), aget_aset]
      have : ¬ a.sku = s := h a (List.mem_cons_self _ _)
      simp [this]

theorem aget_applyAdds (d : ItemMap) (adds : List Item) (s : String)
    (h : keysNodup adds) :
    aget (applyAdds d adds) s =
      match lookupQty adds s with
      | none => aget d s
      | some q => some ((aget d s).getD 0 + q) := by
  induction adds generalizing d with
  | nil => simp [applyAdds, lookupQty]
  | cons a rest ih =>
      have hnd : keysNodup rest := by
        have := h
        simp only [keysNodup, List.map_cons, List.nodup_cons] at this
        exact this.2
      have hhead : a.sku ∉ rest.map Item.sku := by
        have := h
        simp only [keysNodup, List.map_cons, List.nodup_cons] at this
        exact this.1
      show aget (applyAdds (aset d a.sku ((aget d a.sku).getD 0 + a.quantity)) rest) s = _
      by_cases has : a.sku = s
      · subst has
        have hrest : ∀ it ∈ rest, it.sku ≠ a.sku := by
          intro it hit heq
          exact hhead (heq ▸ List.mem_map_of_mem Item.sku hit)
        rw [aget_applyAdds_of_not_mem _ _ _ hrest, aget_aset]
        simp [lookupQty]
      · rw [ih _ hnd]
        have : lookupQty (a :: rest) s = lookupQty rest s := by
          simp [lookupQty, has]
        rw [this, aget_aset]
        simp [has]

theorem aget_applyUpdates_of_not_mem (d : ItemMap) (upds : List Item) (s : String)
    (h : ∀ it ∈ upds, it.sku ≠ s) :
    aget (applyUpdates d upds) s = aget d s := by
  induction upds generalizing d with
  | nil => simp [applyUpdates]
  | cons u rest ih =>
      show aget (applyUpdates (if u.quantity ≤ 0 then apop d u.sku else aset d u.sku u.quantity) rest) s = _
      rw [ih _ (fun it hit => h it (List.mem_cons_of_mem _ hit))]
      have hus : ¬ u.sku = s := h u (List.mem_cons_self _ _)
      by_cases hq : u.quantity ≤ 0
      · simp [hq, aget_apop, hus]
      · simp [hq, aget_aset, hus]

theorem aget_applyUpdates (d : ItemMap) (upds : List Item) (s : String)
    (h : keysNodup upds) :
    aget (applyUpdates d upds) s =
      match lookupQty upds s with
      | none => aget d s
      | some q => if q ≤ 0 then none else some q := by
  induction upds generalizing d with
  | nil => simp [applyUpdates, lookupQty]
  | cons u rest ih =>
      have hnd : keysNodup rest := by
        have := h
        simp only [keysNodup, List.map_cons, List.nodup_cons] at this
        exact this.2
      have hhead : u.sku ∉ rest.map Item.sku := by
        have := h
        simp only [keysNodup, List.map_cons, List.nodup_cons] at this
        exact this.1
      show aget (applyUpdates (if u.quantity ≤ 0 then apop d u.sku else aset d u.sku u.quantity) rest) s = _
      by_cases hus : u.sku = s
      · subst hus
        have hrest : ∀ it ∈ rest, it.sku ≠ u.sku := by
          intro it hit heq
          exact hhead (heq ▸ List.mem_map_of_mem Item.sku hit)
        rw [aget_applyUpdates_of_not_mem _ _ _ hrest]
        by_cases hq : u.quantity ≤ 0
        · simp [hq, aget_apop, lookupQty]
        · simp [hq, aget_aset, lookupQty]
      · rw [ih _ hnd]
        have : lookupQty (u :: rest) s = lookupQty rest s := by
          simp [lookupQty, hus]
        rw [this]
        by_cases hq : u.quantity ≤ 0
        · simp [hq, aget_apop, hus]
        · simp [hq, aget_aset, hus]


/-! ### Further dictionary lemmas -/

theorem aset_append {α : Type u} (l : List (String × α)) (k : String) (v : α)
    (h : ∀ p ∈ l, p.1 ≠ k) : aset l k v = l ++ [(k, v)] := by
  induction l with
  | nil => simp [aset]
  | cons p rest ih =>
      obtain ⟨a, b⟩ := p
      have ha : ¬ a = k := h (a, b) (List.mem_cons_self _ _)
      simp only [aset, if_neg ha, List.cons_append, List.cons.injEq, true_and]
      exact ih (fun q hq => h q (List.mem_cons_of_mem _ hq))

theorem aset_length_le {α : Type u} (l : List (String × α)) (k : String) (v : α) :
    (aset l k v).length ≤ l.length + 1 := by
  induction l with
  | nil => simp [aset]
  | cons p rest ih =>
      obtain ⟨a, b⟩ := p
      by_cases ha : a = k
      · simp [aset, ha]
      · simp only [aset, if_neg ha, List.length_cons]
        omega

theorem findFirst?_aset_of_none (l : List (String × Customer)) (p : Customer → Bool)
    (k : String) (v : Customer) (hnone : findFirst? l p = none) (hv : p v = true) :
    findFirst? (aset l k v) p = some { v with id := k } := by
  induction l with
  | nil => simp [aset, findFirst?, hv]
  | cons q rest ih =>
      obtain ⟨a, c⟩ := q
      have hc : p c = false := by
        by_cases hpc : p c = true
        · simp [findFirst?, hpc] at hnone
        · simpa using hpc
      have hrest : findFirst? rest p = none := by
        simpa [findFirst?, hc] using hnone
      by_cases ha : a = k
      · simp [aset, ha, findFirst?, hv]
      · simp [aset, ha, findFirst?, hc, ih hrest]

/-! ### Positivity of item maps (for the persisted-quantity invariant) -/

theorem valsPos_aset (d : ItemMap) (k : String) (v : Int)
    (hd : valsPos d) (hv : 0 < v) : valsPos (aset d k v) := by
  induction d with
  | nil => intro p hp; simp [aset] at hp; simp [hp, hv]
  | cons q rest ih =>
      obtain ⟨a, b⟩ := q
      have hb : (0 : Int) < b := hd (a, b) (List.mem_cons_self _ _)
      have hrest : valsPos rest := fun p hp => hd p (List.mem_cons_of_mem _ hp)
      by_cases ha : a = k
      · intro p hp
        simp only [aset, if_pos ha] at hp
        rcases List.mem_cons.mp hp with h | h
        · simp [h, hv]
        · exact hrest p h
      · intro p hp
        simp only [aset, if_neg ha] at hp
        rcases List.mem_cons.mp hp with h | h
        · simp [h, hb]
        · exact ih hrest p h

theorem valsPos_apop (d : ItemMap) (k : String) (hd : valsPos d) :
    valsPos (apop d k) := by
  induction d with
  | nil => intro p hp; simp [apop] at hp
  | cons q rest ih =>
      obtain ⟨a, b⟩ := q
      have hb : (0 : Int) < b := hd (a, b) (List.mem_cons_self _ _)
      have hrest : valsPos rest := fun p hp => hd p (List.mem_cons_of_mem _ hp)
      by_cases ha : a = k
      · simpa [apop, ha] using ih hrest
      · intro p hp
        simp only [apop, if_neg ha] at hp
        rcases List.mem_cons.mp hp with h | h
        · simp [h, hb]
        · exact ih hrest p h

theorem aget_pos (d : ItemMap) (s : String) (v : Int) (hd : valsPos d)
    (h : aget d s = some v) : 0 < v := by
  induction d with
  | nil => simp [aget] at h
  | cons q rest ih =>
      obtain ⟨a, b⟩ := q
      have hrest : valsPos rest := fun p hp => hd p (List.mem_cons_of_mem _ hp)
      by_cases ha : a = s
      · simp only [aget, if_pos ha, Option.some.injEq] at h
        subst h
        exact hd (a, b) (List.mem_cons_self _ _)
      · simp only [aget, if_neg ha] at h
        exact ih hrest h

theorem valsPos_itemsToMap_aux (items : List Item) (d : ItemMap)
    (hd : valsPos d) (hitems : ∀ it ∈ items, (0 : Int) < it.quantity) :
    valsPos (items.foldl (fun d it => aset d it.sku it.quantity) d) := by
  induction items generalizing d with
  | nil => simpa using hd
  | cons it rest ih =>
      have hq : (0 : Int) < it.quantity := hitems it (List.mem_cons_self _ _)
      exact ih (aset d it.sku it.quantity) (valsPos_aset d it.sku it.quantity hd hq)
        (fun x hx => hitems x (List.mem_cons_of_mem _ hx))

theorem valsPos_itemsToMap (items : List Item)
    (hitems : ∀ it ∈ items, (0 : Int) < it.quantity) : valsPos (itemsToMap items) :=
  valsPos_itemsToMap_aux items [] (by intro p hp; simp at hp) hitems

theorem valsPos_applyAdds (d : ItemMap) (adds : List Item) (hd : valsPos d)
    (hadds : ∀ it ∈ adds, (0 : Int) < it.quantity) : valsPos (applyAdds d adds) := by
  induction adds generalizing d with
  | nil => simpa [applyAdds] using hd
  | cons a rest ih =>
      have hq : (0 : Int) < a.quantity := hadds a (List.mem_cons_self _ _)
      have hnew : (0 : Int) < (aget d a.sku).getD 0 + a.quantity := by
        cases hg : aget d a.sku with
        | none => simpa using hq
        | some v =>
            have hv := aget_pos d a.sku v hd hg
            simp only [hg, Option.getD_some]
            omega
      show valsPos (applyAdds (aset d a.sku ((aget d a.sku).getD 0 + a.quantity)) rest)
      exact ih _ (valsPos_aset d a.sku _ hd hnew)
        (fun x hx => hadds x (List.mem_cons_of_mem _ hx))

theorem valsPos_applyRemoves (d : ItemMap) (rs : List String) (hd : valsPos d) :
    valsPos (applyRemoves d rs) := by
  induction rs generalizing d with
  | nil => simpa [applyRemoves] using hd
  | cons r rest ih =>
      show valsPos (applyRemoves (apop d r) rest)
      exact ih _ (valsPos_apop d r hd)

theorem valsPos_applyUpdates (d : ItemMap) (upds : List Item) (hd : valsPos d) :
    valsPos (applyUpdates d upds) := by
  induction upds generalizing d with
  | nil => simpa [applyUpdates] using hd
  | cons u rest ih =>
      show valsPos (applyUpdates (if u.quantity ≤ 0 then apop d u.sku else aset d u.sku u.quantity) rest)
      by_cases hq : u.quantity ≤ 0
      · simp only [if_pos hq]
        exact ih _ (valsPos_apop d u.sku hd)
      · simp only [if_neg hq]
        exact ih _ (valsPos_aset d u.sku u.quantity hd (by omega))

theorem valsPos_applyDelta (d : ItemMap) (adds : List Item) (rs : List String)
    (upds : List Item) (hd : valsPos d)
    (hadds : ∀ it ∈ adds, (0 : Int) < it.quantity) :
    valsPos (applyDelta d adds rs upds) :=
  valsPos_applyUpdates _ _ (valsPos_applyRemoves _ _ (valsPos_applyAdds _ _ hd hadds))

theorem mapToItems_pos (d : ItemMap) (hd : valsPos d) :
    ∀ it ∈ mapToItems d, (0 : Int) < it.quantity := by
  intro it hit
  simp only [mapToItems, List.mem_map] at hit
  obtain ⟨p, hp, rfl⟩ := hit
  exact hd p hp

/-! ### Save/merge lemmas -/

theorem aget_omerge_same (l : List (String × OrderRec)) (oid : String)
    (o : OrderRec) (r : OrderRec) (h : aget l oid = some r) :
    aget (omerge l oid o) oid =
      some { r with customer_id := o.customer_id, status := o.status,
                    items := o.items, shipping_address := o.shipping_address } := by
  induction l with
  | nil => simp [aget] at h
  | cons q rest ih =>
      obtain ⟨a, b⟩ := q
      by_cases ha : a = oid
      · simp only [aget, if_pos ha, Option.some.injEq] at h
        subst h
        simp [omerge, ha, aget]
      · simp only [aget, if_neg ha] at h
        simp [omerge, ha, aget, ih h]

/-! ## Claims -/

/-- C1: applying a delta in the fixed order adds, then removals, then
quantity updates yields an item map in which a SKU updated to a positive
quantity has exactly that quantity, a SKU updated to a non-positive
quantity is absent, otherwise a removed SKU is absent, and any other SKU
carries `M[sku] + add[sku]` (each side defaulting to 0, the SKU being
absent when it occurs in neither); updates apply last and removal wins
over add, exactly the stated precedence.  The delta lists are read as
maps, so their SKUs are assumed distinct. -/
theorem delta_application_characterization (M : ItemMap) (adds : List Item)
    (removes : List String) (upds : List Item) (s : String)
    (hadds : keysNodup adds) (hupds : keysNodup upds) :
    aget (applyDelta M adds removes upds) s =
      match lookupQty upds s with
      | some q => if q ≤ 0 then none else some q
      | none =>
          if s ∈ removes then none
          else if (aget M s).isNone ∧ (lookupQty adds s).isNone then none
          else some ((aget M s).getD 0 + (lookupQty adds s).getD 0) := by
  unfold applyDelta
  rw [aget_applyUpdates _ _ _ hupds]
  cases hu : lookupQty upds s with
  | some q => rfl
  | none =>
      simp only
      rw [aget_applyRemoves]
      by_cases hr : s ∈ removes
      · simp [hr]
      · simp only [if_neg hr]
        rw [aget_applyAdds _ _ _ hadds]
        cases ha : lookupQty adds s with
        | some q =>
            cases hm : aget M s with
            | none => simp
            | some m => simp
        | none =>
            cases hm : aget M s with
            | none => simp
            | some m => simp

/-- Witness for C1 at a concrete map and delta: starting from
`{x: 2, y: 1}`, adding 3 to `x`, removing `y`, and updating `x` to 7 and
`z` to 5 leaves `x` at exactly 7 (the update wins over the add). -/
theorem delta_application_characterization_witness :
    keysNodup ([⟨"x", 3⟩] : List Item) ∧ keysNodup ([⟨"x", 7⟩, ⟨"z", 5⟩] : List Item) ∧
    aget (applyDelta [("x", 2), ("y", 1)] [⟨"x", 3⟩] ["y"] [⟨"x", 7⟩, ⟨"z", 5⟩]) "x" = some 7 :=
  ⟨by decide, by decide,
   (delta_application_characterization [("x", 2), ("y", 1)] [⟨"x", 3⟩] ["y"]
      [⟨"x", 7⟩, ⟨"z", 5⟩] "x" (by decide) (by decide)).trans (by decide)⟩

/-- C5: `create_order` with an empty item list fails with the
validation error and returns the store unchanged — the emptiness check
precedes every store access, so no partial order is ever persisted. -/
theorem create_order_empty_items_rejected (customer_id : String)
    (shipping_address : Option String) (db : DB) :
    create_order customer_id [] shipping_address db =
      (.error "Items cannot be empty.", db) := rfl


/-- Shared shape lemma for `tool_modify_order` on an existing order:
the stored record afterwards is the loaded record with its item list
replaced by the delta result and its shipping address replaced exactly
when a truthy new address was given. -/
theorem tool_modify_order_stored (db : DB) (oid : String) (rec : OrderRec)
    (adds : List Item) (rems : List String) (upds : List Item) (na : Option String)
    (hget : aget db.orders oid = some rec) (hid : rec.id = oid) :
    aget (tool_modify_order
        { order_id := some oid, add_items := some adds, remove_items := some rems,
          update_quantities := some upds, new_shipping_address := na } db).2.orders oid =
      some { rec with
             items := mapToItems (applyDelta (itemsToMap rec.items) adds rems upds),
             shipping_address := if (na.getD "") ≠ "" then na.getD "" else rec.shipping_address } := by
  subst hid
  by_cases hna : (na.getD "") ≠ ""
  · have hm := aget_omerge_same db.orders rec.id
      { rec with
        items := mapToItems (applyDelta (itemsToMap rec.items) adds rems upds),
        shipping_address := na.getD "" } rec hget
    simp only [tool_modify_order, get_order, hget, save_order, if_pos hna,
      Option.getD_some, hm]
  · have hm := aget_omerge_same db.orders rec.id
      { rec with
        items := mapToItems (applyDelta (itemsToMap rec.items) adds rems upds) } rec hget
    simp only [tool_modify_order, get_order, hget, save_order, if_neg hna,
      Option.getD_some, hm]


/-- C9: applying a delta to an existing order leaves the persisted
order's `customer_id` and `created_at` equal to their previous values
(`save_order` never writes `created_at`, and `customer_id` is rewritten
with the loaded value), keeps the status it had — in particular a
`PLACED` order stays `PLACED` — and leaves the shipping address
untouched unless a non-empty new address was supplied. -/
theorem modify_preserves_identity_fields (db : DB) (oid : String) (rec : OrderRec)
    (adds : List Item) (rems : List String) (upds : List Item) (na : Option String)
    (hget : aget db.orders oid = some rec) (hid : rec.id = oid) :
    ∃ rec', aget (tool_modify_order
        { order_id := some oid, add_items := some adds, remove_items := some rems,
          update_quantities := some upds, new_shipping_address := na } db).2.orders oid =
          some rec'
      ∧ rec'.customer_id = rec.customer_id
      ∧ rec'.created_at = rec.created_at
      ∧ rec'.status = rec.status
      ∧ (rec.status = "PLACED" → rec'.status = "PLACED")
      ∧ ((na.getD "") = "" → rec'.shipping_address = rec.shipping_address) := by
  refine ⟨_, tool_modify_order_stored db oid rec adds rems upds na hget hid,
    rfl, rfl, rfl, fun h => h, fun hempty => ?_⟩
  simp [hempty]

/-- Witness for C9: modifying the order `o1` (adding one SKU and
updating another to zero) preserves its customer, creation timestamp
and `PLACED` status. -/
theorem modify_preserves_identity_fields_witness :
    ∃ rec', aget (tool_modify_order
        { order_id := some "o1", add_items := some [⟨"003", 1⟩], remove_items := some [],
          update_quantities := some [⟨"007", 0⟩], new_shipping_address := none }
        ⟨[], [("o1", ⟨"o1", "c1", "PLACED", [⟨"007", 2⟩], "addr", "T0"⟩)], 3, "t"⟩).2.orders
          "o1" = some rec'
      ∧ rec'.customer_id = "c1"
      ∧ rec'.created_at = "T0"
      ∧ rec'.status = "PLACED"
      ∧ ("PLACED" = "PLACED" → rec'.status = "PLACED")
      ∧ ((none : Option String).getD "" = "" → rec'.shipping_address = "addr") :=
  modify_preserves_identity_fields
    ⟨[], [("o1", ⟨"o1", "c1", "PLACED", [⟨"007", 2⟩], "addr", "T0"⟩)], 3, "t"⟩ "o1"
    ⟨"o1", "c1", "PLACED", [⟨"007", 2⟩], "addr", "T0"⟩
    [⟨"003", 1⟩] [] [⟨"007", 0⟩] none rfl rfl

/-- C6: no operation of the core persists an item entry with a
non-positive quantity.  Order creation stores the given (schema-valid,
hence positive) quantities verbatim; delta application starts from a
stored order whose quantities are positive, increments by positive
(schema-valid) add quantities, deletes removed SKUs outright, and
removes rather than stores any update with quantity ≤ 0 — so every
quantity in the persisted item list stays positive. -/
theorem persisted_item_quantities_positive
    (db : DB) (customer_id : String) (items : List Item) (ship : Option String)
    (oid : String) (rec : OrderRec) (adds : List Item) (rems : List String)
    (upds : List Item) (na : Option String)
    (hitems : ∀ it ∈ items, (0 : Int) < it.quantity)
    (hadds : ∀ it ∈ adds, (0 : Int) < it.quantity)
    (hget : aget db.orders oid = some rec) (hid : rec.id = oid)
    (hrec : ∀ it ∈ rec.items, (0 : Int) < it.quantity) :
    (∀ ord db', create_order customer_id items ship db = (.ok ord, db') →
        ∀ stored, aget db'.orders ord.id = some stored →
          ∀ it ∈ stored.items, (0 : Int) < it.quantity)
    ∧ (∀ stored, aget (tool_modify_order
          { order_id := some oid, add_items := some adds, remove_items := some rems,
            update_quantities := some upds, new_shipping_address := na } db).2.orders oid =
            some stored →
          ∀ it ∈ stored.items, (0 : Int) < it.quantity) := by
  constructor
  · intro ord db' h stored hstored it hit
    by_cases hemp : items.isEmpty
    · rw [create_order.eq_def, if_pos hemp] at h
      exact absurd (congrArg Prod.fst h) (by simp)
    · rw [create_order.eq_def, if_neg hemp] at h
      injection h with h1 h2
      injection h1 with h1
      subst h1
      subst h2
      rw [aget_aset] at hstored
      rw [if_pos rfl] at hstored
      injection hstored with hs
      subst hs
      exact hitems it hit
  · intro stored hstored it hit
    rw [tool_modify_order_stored db oid rec adds rems upds na hget hid] at hstored
    injection hstored with h
    subst h
    exact mapToItems_pos _
      (valsPos_applyDelta _ adds rems upds (valsPos_itemsToMap rec.items hrec) hadds) it hit

/-- Witness for C6: creating an order with quantity 2 and applying a
delta (add quantity 1, update another SKU to 0) both leave only
positive persisted quantities. -/
theorem persisted_item_quantities_positive_witness :
    (∀ ord db', create_order "c1" [⟨"007", 2⟩] none
        ⟨[], [("o1", ⟨"o1", "c1", "PLACED", [⟨"007", 2⟩], "addr", "T0"⟩)], 3, "t"⟩ =
          (.ok ord, db') →
        ∀ stored, aget db'.orders ord.id = some stored →
          ∀ it ∈ stored.items, (0 : Int) < it.quantity)
    ∧ (∀ stored, aget (tool_modify_order
          { order_id := some "o1", add_items := some [⟨"003", 1⟩], remove_items := some [],
            update_quantities := some [⟨"007", 0⟩], new_shipping_address := none }
          ⟨[], [("o1", ⟨"o1", "c1", "PLACED", [⟨"007", 2⟩], "addr", "T0"⟩)], 3, "t"⟩).2.orders
            "o1" = some stored →
          ∀ it ∈ stored.items, (0 : Int) < it.quantity) :=
  persisted_item_quantities_positive
    ⟨[], [("o1", ⟨"o1", "c1", "PLACED", [⟨"007", 2⟩], "addr", "T0"⟩)], 3, "t"⟩
    "c1" [⟨"007", 2⟩] none "o1" ⟨"o1", "c1", "PLACED", [⟨"007", 2⟩], "addr", "T0"⟩
    [⟨"003", 1⟩] [] [⟨"007", 0⟩] none
    (by decide) (by decide) rfl rfl (by decide)


/-! ### Case lemmas for `find_or_create_customer` -/

theorem foc_email_found (name email address : Option String) (db : DB) (c : Customer)
    (hne : normEmail email ≠ "")
    (hfind : find_customer_by_email (normEmail email) db = some c) :
    find_or_create_customer name email address db = (.ok c, db) := by
  simp [find_or_create_customer, hne, hfind]

theorem foc_nameaddr_found (name email address : Option String) (db : DB) (c : Customer)
    (hemail : (if normEmail email ≠ "" then find_customer_by_email (normEmail email) db
               else none) = none)
    (hnn : normStr name ≠ "") (hna : normStr address ≠ "")
    (hfind : find_customer_by_name_address (normStr name) (normStr address) db = some c) :
    find_or_create_customer name email address db = (.ok c, db) := by
  simp only [find_or_create_customer, hemail, Option.isNone_none, true_and]
  simp [hnn, hna, hfind]

theorem foc_creates (name email address : Option String) (db : DB)
    (hemail : (if normEmail email ≠ "" then find_customer_by_email (normEmail email) db
               else none) = none)
    (hnameaddr : (if normStr name ≠ "" ∧ normStr address ≠ "" then
                    find_customer_by_name_address (normStr name) (normStr address) db
                  else none) = none)
    (hsome : normStr name ≠ "" ∨ normEmail email ≠ "") :
    find_or_create_customer name email address db =
      (.ok ⟨genId db, normStr name, normEmail email, normStr address⟩,
       { db with
         customers := aset db.customers (genId db)
           ⟨genId db, normStr name, normEmail email, normStr address⟩,
         nextId := db.nextId + 1 }) := by
  simp only [find_or_create_customer, hemail, Option.isNone_none, true_and]
  rw [hnameaddr]
  simp [hsome]

theorem foc_error (name email address : Option String) (db : DB)
    (hemail : (if normEmail email ≠ "" then find_customer_by_email (normEmail email) db
               else none) = none)
    (hnameaddr : (if normStr name ≠ "" ∧ normStr address ≠ "" then
                    find_customer_by_name_address (normStr name) (normStr address) db
                  else none) = none)
    (hnone : normStr name = "" ∧ normEmail email = "") :
    find_or_create_customer name email address db =
      (.error "Cannot resolve customer. Provide at least name or email.", db) := by
  simp only [find_or_create_customer, hemail, Option.isNone_none, true_and]
  rw [hnameaddr]
  simp [hnone.1, hnone.2]


/-- C2: `find_or_create_customer` coincides with the priority-ordered
resolution contract `resolveCustomerSpec` modelled from the spec's
wording: normalize (email trimmed and lowercased, name and address
trimmed), look up by email when the normalized email is non-empty, else
by exact name+address when both are non-empty, else create exactly one
new customer with a fresh id and the normalized fields (missing fields
becoming the empty string), else signal the resolution error — so every
call yields exactly one customer or that error. -/
theorem find_or_create_matches_spec (name email address : Option String) (db : DB) :
    find_or_create_customer name email address db = resolveCustomerSpec name email address db := by
  by_cases hne : normEmail email = "" <;>
    by_cases hnn : normStr name = "" <;>
      by_cases hna : normStr address = "" <;>
        cases hfe : find_customer_by_email (normEmail email) db <;>
          cases hfn : find_customer_by_name_address (normStr name) (normStr address) db <;>
            simp [find_or_create_customer, resolveCustomerSpec, hne, hnn, hna, hfe, hfn]


/-- C10: resolution called with a non-empty (normalized) name but no
email and no address skips the email lookup (empty normalized email)
and the name+address lookup (empty normalized address), so it never
matches any existing customer — even one with an identical stored name —
and always creates a new record with the fresh id. -/
theorem name_only_resolution_always_creates (db : DB) (name email address : Option String)
    (hn : normStr name ≠ "") (he : normEmail email = "") (ha : normStr address = "")
    (hfresh : ∀ p ∈ db.customers, p.1 ≠ genId db) :
    find_or_create_customer name email address db =
      (.ok ⟨genId db, normStr name, "", ""⟩,
       { db with
         customers := db.customers ++ [(genId db, ⟨genId db, normStr name, "", ""⟩)],
         nextId := db.nextId + 1 }) := by
  have h1 := foc_creates name email address db (by simp [he]) (by simp [ha]) (Or.inl hn)
  rw [h1, he, ha, aset_append db.customers (genId db) _ hfresh]

/-- Witness for C10: with a stored customer also named `Alice`, a
name-only call still creates a fresh record rather than matching it. -/
theorem name_only_resolution_always_creates_witness :
    find_or_create_customer (some "Alice") none none
      ⟨[("c9", ⟨"c9", "Alice", "", "Somewhere"⟩)], [], 5, "t"⟩ =
      (.ok ⟨"uuid-5", "Alice", "", ""⟩,
       ⟨[("c9", ⟨"c9", "Alice", "", "Somewhere"⟩), ("uuid-5", ⟨"uuid-5", "Alice", "", ""⟩)],
        [], 6, "t"⟩) :=
  name_only_resolution_always_creates
    ⟨[("c9", ⟨"c9", "Alice", "", "Somewhere"⟩)], [], 5, "t"⟩
    (some "Alice") none none (by decide) (by decide) (by decide) (by decide)


/-- After creating a customer whose stored email matches `ne` (under the
scan's normalization) in a store where the email scan found nothing, the
scan finds exactly the created record. -/
theorem find_customer_by_email_create (db db' : DB) (ne : String) (c : Customer)
    (cid : String) (hdb : db'.customers = aset db.customers cid c)
    (hguard : pyLower (pyStrip ne) ≠ "")
    (hnone : find_customer_by_email ne db = none)
    (hcemail : pyLower (pyStrip c.email) = pyLower (pyStrip ne)) :
    find_customer_by_email ne db' = some { c with id := cid } := by
  have hnone' : findFirst? db.customers
      (fun x => pyLower (pyStrip x.email) == pyLower (pyStrip ne)) = none := by
    simpa [find_customer_by_email, hguard] using hnone
  simp only [find_customer_by_email, hdb]
  rw [if_neg hguard]
  exact findFirst?_aset_of_none _ _ _ _ hnone' (by simp [hcemail])

/-- The creation case of sequential email idempotence: when the first
call created the record, the second call with the same normalized
inputs finds it by email and changes nothing. -/
theorem foc_idem_creation (db db1 : DB) (n1 e1 a1 n2 e2 a2 : Option String) (c1 : Customer)
    (hguard : pyLower (pyStrip (normEmail e1)) ≠ "")
    (hne : normEmail e1 ≠ "")
    (he : normEmail e2 = normEmail e1)
    (hfe : find_customer_by_email (normEmail e1) db = none)
    (hcreate : find_or_create_customer n1 e1 a1 db =
      (.ok ⟨genId db, normStr n1, normEmail e1, normStr a1⟩,
       { db with
         customers := aset db.customers (genId db)
           ⟨genId db, normStr n1, normEmail e1, normStr a1⟩,
         nextId := db.nextId + 1 }))
    (h1 : find_or_create_customer n1 e1 a1 db = (.ok c1, db1)) :
    find_or_create_customer n2 e2 a2 db1 = (.ok c1, db1)
    ∧ db1.customers.length ≤ db.customers.length + 1 := by
  rw [hcreate] at h1
  injection h1 with hx hy
  injection hx with hx
  subst hx
  subst hy
  constructor
  · have hfe2 : find_customer_by_email (normEmail e2)
        { db with
          customers := aset db.customers (genId db)
            ⟨genId db, normStr n1, normEmail e1, normStr a1⟩,
          nextId := db.nextId + 1 } =
        some { (⟨genId db, normStr n1, normEmail e1, normStr a1⟩ : Customer) with
               id := genId db } := by
      refine find_customer_by_email_create db _ (normEmail e2)
        ⟨genId db, normStr n1, normEmail e1, normStr a1⟩ (genId db) rfl ?_ ?_ ?_
      · rw [he]; exact hguard
      · rw [he]; exact hfe
      · rw [he]
    exact foc_email_found n2 e2 a2 _ _ (by rw [he]; exact hne) hfe2
  · exact aset_length_le db.customers (genId db) _

/-- Counterexample to C8 as stated: two sequential resolutions whose
inputs normalize to the same non-empty email (`x@y.com`), run on a store
holding customers `idA` (name `A`, address `P`) and `idB` (name `B`,
address `Q`) with other emails.  The email lookup misses both times, the
name+address fallback matches a different existing customer in each
call (the first call writes nothing, so the second runs on the same
store), and the two returned customer ids differ. -/
theorem email_idempotence_counterexample :
    find_or_create_customer (some "A") (some "x@y.com") (some "P")
      ⟨[("idA", ⟨"idA", "A", "a@a", "P"⟩), ("idB", ⟨"idB", "B", "b@b", "Q"⟩)], [], 0, "t"⟩ =
      (.ok ⟨"idA", "A", "a@a", "P"⟩,
       ⟨[("idA", ⟨"idA", "A", "a@a", "P"⟩), ("idB", ⟨"idB", "B", "b@b", "Q"⟩)], [], 0, "t"⟩)
    ∧ find_or_create_customer (some "B") (some "x@y.com") (some "Q")
      ⟨[("idA", ⟨"idA", "A", "a@a", "P"⟩), ("idB", ⟨"idB", "B", "b@b", "Q"⟩)], [], 0, "t"⟩ =
      (.ok ⟨"idB", "B", "b@b", "Q"⟩,
       ⟨[("idA", ⟨"idA", "A", "a@a", "P"⟩), ("idB", ⟨"idB", "B", "b@b", "Q"⟩)], [], 0, "t"⟩)
    ∧ normEmail (some "x@y.com") ≠ ""
    ∧ ("idA" : String) ≠ "idB" :=
  ⟨by decide, by decide, by decide, by decide⟩

/-- C8 (amended): sequential email idempotence holds when the two calls
agree on all three normalized inputs (not just the email): if the first
call succeeds, the second returns the very same customer record, leaves
the store exactly as the first call left it, and at most one record is
created across both calls. -/
theorem email_resolution_idempotent_same_inputs
    (db db1 : DB) (n1 e1 a1 n2 e2 a2 : Option String) (c1 : Customer)
    (hguard : pyLower (pyStrip (normEmail e1)) ≠ "")
    (hn : normStr n2 = normStr n1) (he : normEmail e2 = normEmail e1)
    (ha : normStr a2 = normStr a1)
    (h1 : find_or_create_customer n1 e1 a1 db = (.ok c1, db1)) :
    find_or_create_customer n2 e2 a2 db1 = (.ok c1, db1)
    ∧ db1.customers.length ≤ db.customers.length + 1 := by
  have hne : normEmail e1 ≠ "" := by
    intro h
    rw [h] at hguard
    exact hguard rfl
  cases hfe : find_customer_by_email (normEmail e1) db with
  | some c =>
      rw [foc_email_found n1 e1 a1 db c hne hfe] at h1
      injection h1 with hx hy
      injection hx with hx
      subst hx
      subst hy
      refine ⟨?_, Nat.le_succ _⟩
      exact foc_email_found n2 e2 a2 db c (by rw [he]; exact hne) (by rw [he]; exact hfe)
  | none =>
      have hemail1 : (if normEmail e1 ≠ "" then find_customer_by_email (normEmail e1) db
          else none) = none := by
        rw [if_pos hne]; exact hfe
      by_cases hcond : normStr n1 ≠ "" ∧ normStr a1 ≠ ""
      · cases hfn : find_customer_by_name_address (normStr n1) (normStr a1) db with
        | some c =>
            rw [foc_nameaddr_found n1 e1 a1 db c hemail1 hcond.1 hcond.2 hfn] at h1
            injection h1 with hx hy
            injection hx with hx
            subst hx
            subst hy
            refine ⟨?_, Nat.le_succ _⟩
            refine foc_nameaddr_found n2 e2 a2 db c ?_ ?_ ?_ ?_
            · rw [he]; exact hemail1
            · rw [hn]; exact hcond.1
            · rw [ha]; exact hcond.2
            · rw [hn, ha]; exact hfn
        | none =>
            have hnameaddr1 : (if normStr n1 ≠ "" ∧ normStr a1 ≠ "" then
                find_customer_by_name_address (normStr n1) (normStr a1) db
              else none) = none := by
              rw [if_pos hcond]; exact hfn
            exact foc_idem_creation db db1 n1 e1 a1 n2 e2 a2 c1 hguard hne he hfe
              (foc_creates n1 e1 a1 db hemail1 hnameaddr1 (Or.inr hne)) h1
      · have hnameaddr1 : (if normStr n1 ≠ "" ∧ normStr a1 ≠ "" then
            find_customer_by_name_address (normStr n1) (normStr a1) db
          else none) = none := by
          rw [if_neg hcond]
        exact foc_idem_creation db db1 n1 e1 a1 n2 e2 a2 c1 hguard hne he hfe
          (foc_creates n1 e1 a1 db hemail1 hnameaddr1 (Or.inr hne)) h1

/-- Witness for amended C8: a first call with email `" Bob@X.com "` on
an empty store creates `uuid-0` with normalized email `bob@x.com`; the
identical second call finds that record, changes nothing, and exactly
one record exists. -/
theorem email_resolution_idempotent_same_inputs_witness :
    find_or_create_customer none (some " Bob@X.com ") none
      ⟨[("uuid-0", ⟨"uuid-0", "", "bob@x.com", ""⟩)], [], 1, "t"⟩ =
      (.ok ⟨"uuid-0", "", "bob@x.com", ""⟩,
       ⟨[("uuid-0", ⟨"uuid-0", "", "bob@x.com", ""⟩)], [], 1, "t"⟩)
    ∧ ([("uuid-0", (⟨"uuid-0", "", "bob@x.com", ""⟩ : Customer))]).length ≤
        ([] : List (String × Customer)).length + 1 :=
  email_resolution_idempotent_same_inputs
    ⟨[], [], 0, "t"⟩ ⟨[("uuid-0", ⟨"uuid-0", "", "bob@x.com", ""⟩)], [], 1, "t"⟩
    none (some " Bob@X.com ") none none (some " Bob@X.com ") none
    ⟨"uuid-0", "", "bob@x.com", ""⟩
    (by decide) rfl rfl rfl (by decide)


/-- C7: dispatching a tool name outside the fixed registry never raises:
`runToolCall` is total and yields exactly the failed result
`{ok: false, error: "Unknown tool <name>"}`, leaving the store
untouched. -/
theorem unknown_tool_yields_failed_result (n : String) (args : ToolArgs) (db : DB)
    (h : n ∉ toolNames) :
    runToolCall db n args =
      ({ ok := false, error := some ("Unknown tool " ++ n) }, db) := by
  have himpl : TOOL_IMPLS n = none := by
    simp only [toolNames, List.mem_cons, List.not_mem_nil, or_false, not_or] at h
    obtain ⟨h1, h2, h3, h4, h5⟩ := h
    simp [TOOL_IMPLS, h1, h2, h3, h4, h5]
  simp [runToolCall, himpl]

/-- Witness for C7: the name `frobnicate` is not registered and
dispatches to the failed unknown-tool result. -/
theorem unknown_tool_yields_failed_result_witness :
    ("frobnicate" ∉ toolNames) ∧
    runToolCall ⟨[], [], 0, "t"⟩ "frobnicate" {} =
      ({ ok := false, error := some ("Unknown tool " ++ "frobnicate") }, ⟨[], [], 0, "t"⟩) :=
  ⟨by decide,
   unknown_tool_yields_failed_result "frobnicate" {} ⟨[], [], 0, "t"⟩ (by decide)⟩

/-- C3 (documents the code bug): a tool invocation whose argument
payload is not decodable JSON makes the whole turn abort —
`json.loads` sits outside the per-invocation `try`, so the decode
exception escapes `chat_step` instead of becoming a failed ToolResult,
contrary to the specification. -/
theorem malformed_tool_arguments_abort_turn (history : List Message) (userMessage : String)
    (tcid fname : String) (rest : List ToolCall) (summaryContent : Option String) (db : DB) :
    chat_step history userMessage ⟨none, ⟨tcid, fname, .malformed⟩ :: rest⟩ summaryContent db =
      .aborted jsonDecodeError
        ⟨history ++ [{ role := .user, content := some userMessage }], db⟩ := rfl


/-- Counterexample to C4 as stated: a turn with one failing invocation
(`get_order_status` on an unknown order) collects the failure pair list
`["get_order_status: Order not found"]`, but the user-visible reply is
that list joined *behind the fixed banner*, not the bare joined list. -/
theorem tool_failure_reply_has_banner_counterexample :
    chat_step [] "hi"
      ⟨none, [⟨"call1", "get_order_status", .decoded { order_id := some "missing" }⟩]⟩
      none ⟨[], [], 0, "t"⟩ =
      .completed
        "Error while performing the requested action: get_order_status: Order not found"
        false
        ⟨[{ role := .user, content := some "hi" },
          { role := .assistant, content := some "",
            toolCalls := [⟨"call1", "get_order_status", .decoded { order_id := some "missing" }⟩] },
          { role := .tool,
            content := some (jsonDumps { ok := false, error := some "Order not found" }),
            tool_call_id := some "call1", name := some "get_order_status" },
          { role := .assistant,
            content := some
              "Error while performing the requested action: get_order_status: Order not found" }],
         ⟨[], [], 0, "t"⟩⟩
    ∧ runToolCalls [⟨"call1", "get_order_status", .decoded { order_id := some "missing" }⟩]
        ⟨[{ role := .user, content := some "hi" }], ⟨[], [], 0, "t"⟩⟩ [] =
        .ok (⟨[{ role := .user, content := some "hi" },
               { role := .assistant, content := some "",
                 toolCalls := [⟨"call1", "get_order_status",
                   .decoded { order_id := some "missing" }⟩] },
               { role := .tool,
                 content := some (jsonDumps { ok := false, error := some "Order not found" }),
                 tool_call_id := some "call1", name := some "get_order_status" }],
              ⟨[], [], 0, "t"⟩⟩,
             ["get_order_status: Order not found"])
    ∧ "Error while performing the requested action: get_order_status: Order not found" ≠
        "get_order_status: Order not found" :=
  ⟨by decide, by decide, by decide⟩

/-- C4 (amended): when a turn requests at least one tool invocation and
at least one reports failure, no summary model call is issued
(`summaryCalled = false`) and the user-visible reply is exactly the
fixed banner `"Error while performing the requested action: "` followed
by the `" | "`-joined list of `"<tool name>: <error>"` pairs for the
failed invocations, in order; the same text is appended to the session
log as the assistant's turn-ending entry. -/
theorem tool_failure_short_circuit (history : List Message) (userMessage : String)
    (resp : ModelMsg) (summaryContent : Option String) (db : DB)
    (st : TurnState) (errs : List String)
    (hcalls : resp.toolCalls ≠ [])
    (hrun : runToolCalls resp.toolCalls
        ⟨history ++ [{ role := .user, content := some userMessage }], db⟩ [] = .ok (st, errs))
    (herrs : errs ≠ []) :
    chat_step history userMessage resp summaryContent db =
      .completed
        ("Error while performing the requested action: " ++ String.intercalate " | " errs)
        false
        ⟨st.messages ++
          [{ role := .assistant,
             content := some ("Error while performing the requested action: " ++
               String.intercalate " | " errs) }],
         st.db⟩ := by
  have hc : resp.toolCalls.isEmpty = false := by
    cases h' : resp.toolCalls
    · exact absurd h' hcalls
    · rfl
  have he : errs.isEmpty = false := by
    cases h' : errs
    · exact absurd h' herrs
    · rfl
  simp [chat_step, hc, hrun, he]

/-- Witness for amended C4: the failing single-invocation turn from the
counterexample, run through the theorem — banner-prefixed joined reply,
no summary call, reply appended to the log. -/
theorem tool_failure_short_circuit_witness :
    chat_step [] "hi"
      ⟨none, [⟨"call1", "get_order_status", .decoded { order_id := some "missing" }⟩]⟩
      none ⟨[], [], 0, "t"⟩ =
      .completed
        ("Error while performing the requested action: " ++
          String.intercalate " | " ["get_order_status: Order not found"])
        false
        ⟨[{ role := .user, content := some "hi" },
          { role := .assistant, content := some "",
            toolCalls := [⟨"call1", "get_order_status", .decoded { order_id := some "missing" }⟩] },
          { role := .tool,
            content := some (jsonDumps { ok := false, error := some "Order not found" }),
            tool_call_id := some "call1", name := some "get_order_status" }] ++
          [{ role := .assistant,
             content := some ("Error while performing the requested action: " ++
               String.intercalate " | " ["get_order_status: Order not found"]) }],
         ⟨[], [], 0, "t"⟩⟩ :=
  tool_failure_short_circuit [] "hi"
    ⟨none, [⟨"call1", "get_order_status", .decoded { order_id := some "missing" }⟩]⟩
    none ⟨[], [], 0, "t"⟩
    ⟨[{ role := .user, content := some "hi" },
      { role := .assistant, content := some "",
        toolCalls := [⟨"call1", "get_order_status", .decoded { order_id := some "missing" }⟩] },
      { role := .tool,
        content := some (jsonDumps { ok := false, error := some "Order not found" }),
        tool_call_id := some "call1", name := some "get_order_status" }],
     ⟨[], [], 0, "t"⟩⟩
    ["get_order_status: Order not found"]
    (by decide) (by decide) (by decide)

end DemoCT
